import Mathlib

/-!
Shallow embedding of the playback/interaction core of the lofi-FM record
player application (source file `src/unnamed/part_001`).  The embedding
covers the audio singleton (`createAudioPlayer`, `pauseMusic`,
`cleanupAudio`), the button visual mapping (`updateButtonStateVisual`),
the toggle state machine (`togglePlayback` together with its timer
continuations and the `selectstart` handler), track switching
(`playPreviousTrack` / `playNextTrack`), the drag-rotation clamp
(`applyCameraRelativeRotation`) and the hover logic of
`handleControllerInteraction`.  Timer callbacks are represented by an
explicit pending list that is executed in scheduling order, which matches
the single-threaded event loop because every in-flight sequence keeps at
most one timer pending at a time.
-/

namespace LofiFM

/-! ## Definitions -/

/-- Substring occurrence test on character lists: `charsHaveSub p h` is
true iff `p` occurs contiguously inside `h`. -/
def charsHaveSub (pat : List Char) : List Char → Bool
  | [] => pat.isEmpty
  | c :: rest => pat.isPrefixOf (c :: rest) || charsHaveSub pat rest

/-- JavaScript `hay.includes(pat)` on strings. -/
def strIncludes (hay pat : String) : Bool := charsHaveSub pat.data hay.data

/-- State of one underlying HTML `Audio` object.  The `id` field is a
creation serial number standing for JavaScript object identity: two
handles are the same live object exactly when their ids agree. -/
structure AudioObj where
  id : ℕ
  volume : ℚ
  currentTime : ℚ
  paused : Bool
  loop : Bool
  deriving DecidableEq

/-- Mutable audio module state (`audioState`): the music singleton
reference and a creation counter numbering `new Audio(...)` calls. -/
structure AudioSt where
  musicAudio : Option AudioObj
  nextId : ℕ
  deriving DecidableEq

/-- Source path of the music track registered in `audioState.trackList`. -/
def lofiPath : String := "./audio/lofi.mp3"

/-- Translation of the `playAudio` closure returned by `createAudioPlayer`
(`src/unnamed/part_001` lines 64-105).  A path containing `lofi.mp3` uses
the singleton: the `Audio` object is constructed only when
`audioState.musicAudio` is null, then the call sets the volume, rewinds
`currentTime` to `0` and issues `play()`.  Any other path constructs a
fresh transient effect object that is never stored.  The returned pair is
the updated module state and the audio object the call returns. -/
def playAudio (audioPath : String) (s : AudioSt) (volume : ℚ) :
    AudioSt × AudioObj :=
  if strIncludes audioPath "lofi.mp3" then
    match s.musicAudio with
    | some h =>
      let h2 : AudioObj := { h with volume := volume, currentTime := 0, paused := false }
      ({ s with musicAudio := some h2 }, h2)
    | none =>
      let h : AudioObj :=
        { id := s.nextId, volume := 1, currentTime := 0, paused := true, loop := true }
      let h2 : AudioObj := { h with volume := volume, currentTime := 0, paused := false }
      ({ musicAudio := some h2, nextId := s.nextId + 1 }, h2)
  else
    ({ s with nextId := s.nextId + 1 },
     { id := s.nextId, volume := volume, currentTime := 0, paused := false, loop := false })

/-- Translation of `pauseMusic` (lines 110-118): when the singleton
exists it is paused and its playback position reset to `0`; otherwise
nothing happens. -/
def pauseMusic (s : AudioSt) : AudioSt :=
  match s.musicAudio with
  | some h => { s with musicAudio := some { h with paused := true, currentTime := 0 } }
  | none => s

/-- Translation of `cleanupAudio` (lines 123-129): pauses the singleton
(if any) and drops the reference. -/
def cleanupAudio (s : AudioSt) : AudioSt :=
  match s.musicAudio with
  | some _ => { s with musicAudio := none }
  | none => s

/-- One call in a `playMusic` / `pauseMusic` call sequence (claim C3
quantifies over such sequences; `cleanupAudio` is deliberately not a
member, matching the "without an intervening `cleanupAudio`" proviso). -/
inductive MOp
  | play (volume : ℚ)
  | pause
  deriving DecidableEq

/-- Effect of one call of a `playMusic` / `pauseMusic` sequence. -/
def applyMOp (s : AudioSt) : MOp → AudioSt
  | MOp.play v => (playAudio lofiPath s v).1
  | MOp.pause => pauseMusic s

/-- Effect of a whole `playMusic` / `pauseMusic` call sequence. -/
def applyMOps (ops : List MOp) (s : AudioSt) : AudioSt :=
  ops.foldl applyMOp s

/-- Initial audio module state: no singleton, no objects created yet. -/
def audioStA : AudioSt := { musicAudio := none, nextId := 0 }

/-- Audio state after the first `playMusic` call. -/
def audioStB : AudioSt := (playAudio lofiPath audioStA 1).1

/-- Music handle used by the C5 witness: mid-track, playing. -/
def audioObjB : AudioObj :=
  { id := 7, volume := 1, currentTime := 3, paused := false, loop := true }

/-- Audio state holding `audioObjB` as the singleton. -/
def audioStC : AudioSt := { musicAudio := some audioObjB, nextId := 8 }

/-- Material assignment performed on the play-button mesh: `keep` is the
early return when the button or its saved original material is missing
(no assignment at all), `original` restores the saved unmodified
material, and `emissive r g b i` assigns a clone of the original with the
given emissive tint and intensity. -/
inductive MatAssign
  | keep
  | original
  | emissive (r g b intensity : ℚ)
  deriving DecidableEq

/-- Flags read by `updateButtonStateVisual`: presence of the button mesh
with its saved original material, and the three state flags
`xrControl.buttonPressed`, `gameState.playing`, `xrControl.isHovering`. -/
structure VisCtx where
  hasButton : Bool
  buttonPressed : Bool
  playing : Bool
  isHovering : Bool
  deriving DecidableEq

/-- Translation of `updateButtonStateVisual` (lines 383-428).  With no
explicit state the current state is selected by the priority
`pressed > playing > hover > idle`; the result is the single material
assignment the function performs on the button mesh. -/
def updateButtonStateVisual (state : Option String) (ctx : VisCtx) : MatAssign :=
  if ctx.hasButton then
    let currentState : String :=
      match state with
      | some st => st
      | none =>
        if ctx.buttonPressed then "pressed"
        else if ctx.playing then "playing"
        else if ctx.isHovering then "hover"
        else "idle"
    if currentState = "hover" then MatAssign.emissive (9/10) 1 1 (3/10)
    else if currentState = "pressed" then MatAssign.emissive 1 (4/5) (1/5) (2/5)
    else if currentState = "playing" then MatAssign.emissive 0 (68/255) 0 (1/5)
    else MatAssign.original
  else MatAssign.keep

/-- State read and written by the track-switching functions: the current
index into `audioState.trackList`, the track list itself, the music
singleton, the `gameState.playing` flag, and a flag recording that the
delayed audio re-initialisation (`setTimeout(initAudio...)`) was
scheduled. -/
structure TrackSt where
  currentTrackIndex : ℕ
  trackList : List String
  musicAudio : Option AudioObj
  playing : Bool
  pendingReinit : Bool
  deriving DecidableEq

/-- Effect of `cleanupAudio` on the track-switching state. -/
def cleanupAudioT (s : TrackSt) : TrackSt :=
  match s.musicAudio with
  | some _ => { s with musicAudio := none }
  | none => s

/-- Translation of `playPreviousTrack` (lines 515-543). -/
def playPreviousTrack (s : TrackSt) : TrackSt :=
  if s.trackList.length ≤ 1 then s
  else
    let len := s.trackList.length
    let s1 := { s with currentTrackIndex := (s.currentTrackIndex + len - 1) % len }
    if s1.playing then { (cleanupAudioT s1) with pendingReinit := true }
    else cleanupAudioT s1

/-- Translation of `playNextTrack` (lines 548-576). -/
def playNextTrack (s : TrackSt) : TrackSt :=
  if s.trackList.length ≤ 1 then s
  else
    let len := s.trackList.length
    let s1 := { s with currentTrackIndex := (s.currentTrackIndex + 1) % len }
    if s1.playing then { (cleanupAudioT s1) with pendingReinit := true }
    else cleanupAudioT s1

/-- Three-track state used by the C9 witness. -/
def trackStA : TrackSt :=
  { currentTrackIndex := 0, trackList := ["a", "b", "c"], musicAudio := none,
    playing := false, pendingReinit := false }

/-- Data the interaction code reads off an intersected scene object: its
node name and the `userData` tags set at model-processing time. -/
structure HitObj where
  name : String
  isButton : Bool
  isRotatable : Bool
  buttonType : Option String
  deriving DecidableEq

/-- Visual updates issued by the hover-detection code: `hoverEnter` is the
`updateButtonStateVisual('hover')` call on hover start, `hoverExit` the
`updateButtonStateVisual()` call on hover end. -/
inductive HovEv
  | hoverEnter
  | hoverExit
  deriving DecidableEq

/-- Name test used by `findModelComponents` (lines 225-240) to locate the
play button: `child.name.includes('pause_play')`. -/
def nameMatchesPlayButton (n : String) : Bool := strIncludes n "pause_play"

/-- Translation of the play-button assignment in `findModelComponents`:
the traversal stores every visited child whose name contains
`pause_play`, so the last matching name wins. -/
def findPlayButton (names : List String) : Option String :=
  names.foldl (fun acc n => if nameMatchesPlayButton n then some n else acc) none

/-- Translation of the hover-detection part of `handleControllerInteraction`
(lines 903-937): given the intersection list and the current
`xrControl.isHovering` flag it returns the new flag and the visual events
issued.  The inner clear branch of the source (lines 919-926) is
unreachable because it is guarded by `!isHoveringButton` right after
`isHoveringButton` was set to true, so it contributes nothing. -/
def handleHoverTick (intersects : List HitObj) (isHovering : Bool) :
    Bool × List HovEv :=
  let isHoveringButton :=
    match intersects.head? with
    | some o => o.isButton
    | none => false
  let step :=
    match intersects.head? with
    | some o =>
      if o.isButton then
        if isHovering = false ∧ o.name = "pause_play" then (true, [HovEv.hoverEnter])
        else (isHovering, [])
      else (isHovering, [])
    | none => (isHovering, [])
  if isHoveringButton = false ∧ step.1 = true then (false, step.2 ++ [HovEv.hoverExit])
  else step

/-- Button node whose name merely contains `pause_play`. -/
def oddButton : HitObj :=
  { name := "pause_play_btn", isButton := true, isRotatable := false, buttonType := none }

/-- Non-button rotatable node used as a top hit. -/
def plainHit : HitObj :=
  { name := "vinyl_disc", isButton := false, isRotatable := true, buttonType := none }

/-- Value of `Math.PI / 2` as the exact rational denoted by the IEEE-754
double the JavaScript engine uses. -/
def halfPi : ℚ := 884279719003555 / 562949953421312

/-- Orientation of the dragged model as its YXZ Euler angles.  Starting
from the identity the model quaternion always has the form
`Ry(yaw) * Rx(pitch)` (the roll component stays zero): the premultiplied
Y-axis quaternion of the source adds to the yaw and the postmultiplied
X-axis quaternion adds the clamped difference to the pitch, and
`setFromQuaternion(..., 'YXZ')` reads these angles back, so this pair is
exactly the state the code manipulates. -/
structure RotSt where
  yaw : ℚ
  pitch : ℚ
  deriving DecidableEq

/-- Translation of `applyCameraRelativeRotation` (lines 988-1020) on the
Euler-angle state: a zero delta returns early, otherwise the yaw grows by
`deltaMove.x * rotationSpeed` unclamped and the pitch is clamped into
`[-Math.PI/2, Math.PI/2]` after adding `deltaMove.y * rotationSpeed`. -/
def applyCameraRelativeRotation (s : RotSt) (dx dy rotationSpeed : ℚ) : RotSt :=
  if dx = 0 ∧ dy = 0 then s
  else
    let newXRotation := s.pitch + dy * rotationSpeed
    let clampedXRotation := max (-halfPi) (min halfPi newXRotation)
    { yaw := s.yaw + dx * rotationSpeed, pitch := clampedXRotation }

/-- One drag tick of `handleControllerInteraction` (lines 892-901): the
controller displacement is scaled by `xrControl.rotationSpeed` (3000),
the vertical component is negated, and `applyCameraRelativeRotation` is
invoked with its default speed `0.01`. -/
def dragStep (s : RotSt) (d : ℚ × ℚ) : RotSt :=
  applyCameraRelativeRotation s (d.1 * 3000) (-(d.2 * 3000)) (1/100)

/-- Effect of a whole sequence of drag ticks. -/
def applyDrags (ds : List (ℚ × ℚ)) (s : RotSt) : RotSt := ds.foldl dragStep s

/-- Initial orientation: the loaded model is unrotated. -/
def initRot : RotSt := { yaw := 0, pitch := 0 }

/-- Animation registry `animationControl.animations`: the duration in
seconds of each clip the sequencer uses, or `none` when the model did not
register it. -/
structure Registry where
  stylusOn : Option ℚ
  stylusPlaying : Option ℚ
  stylusOff : Option ℚ
  buttonDown : Option ℚ
  deriving DecidableEq

/-- Lookup `animationControl.animations[name]` for the clips the
sequencer touches. -/
def lookupClip (r : Registry) (n : String) : Option ℚ :=
  if n = "stylus_On" then r.stylusOn
  else if n = "stylus_playing" then r.stylusPlaying
  else if n = "stylus_Off" then r.stylusOff
  else if n = "button_down" then r.buttonDown
  else none

/-- Ambient configuration of the sequencer: the animation registry and
whether `audioState.playMusic` / `audioState.playButtonClick` were
initialised to functions. -/
structure Cfg where
  reg : Registry
  hasPlayMusic : Bool
  hasClick : Bool
  deriving DecidableEq

/-- Observable actions of the sequencer, in execution order:
animation starts/stops, the `playMusic` / `pauseMusic` /
`playButtonClick` calls, the invocation of the completion callback
(`settled`), assignments to `gameState.playing`, and
`updateButtonStateVisual` calls with their argument. -/
inductive Ev
  | playClick
  | playAnim (n : String) (looped : Bool)
  | stopAnim (n : String)
  | playMusicCall
  | pauseMusicCall
  | settled
  | setPlaying (b : Bool)
  | updateVis (arg : Option String)
  deriving DecidableEq

/-- Pending `setTimeout` continuations: the button-delay body of
`onSelectStart` (lines 823-828), the `stylus_On` continuation of
`togglePlayback` (lines 478-497), and the `stylus_Off` continuation
(lines 458-462). -/
inductive Cont
  | buttonDelay
  | stylusOnDone
  | stylusOffDone
  deriving DecidableEq

/-- Sequencer state: the debounce lock `xrControl.isAnimating`,
`gameState.playing`, `xrControl.buttonPressed`, `xrControl.isDragging`,
`xrControl.buttonState`, the pending timers in scheduling order (delay in
milliseconds plus continuation), and the log of observable actions. -/
structure SeqSt where
  isAnimating : Bool
  playing : Bool
  buttonPressed : Bool
  isDragging : Bool
  buttonState : String
  timers : List (ℚ × Cont)
  log : List Ev
  deriving DecidableEq

/-- Translation of `playAnimation` (lines 351-363): an unregistered name
only logs a warning and has no effect. -/
def playAnimation (c : Cfg) (n : String) (looped : Bool) (s : SeqSt) : SeqSt :=
  match lookupClip c.reg n with
  | some _ => { s with log := s.log ++ [Ev.playAnim n looped] }
  | none => s

/-- Translation of `stopAnimation` (lines 369-377) and of the guarded
`action.stop()` calls in `togglePlayback`: stopping an unregistered name
has no effect. -/
def stopAnimation (c : Cfg) (n : String) (s : SeqSt) : SeqSt :=
  match lookupClip c.reg n with
  | some _ => { s with log := s.log ++ [Ev.stopAnim n] }
  | none => s

/-- Completion callback `onAnimaCompelted` as `onSelectStart` passes it
(lines 824-827): it releases the debounce lock
`xrControl.isAnimating`.  Its invocation is logged as `Ev.settled`. -/
def onSettledCb (s : SeqSt) : SeqSt :=
  { s with isAnimating := false, log := s.log ++ [Ev.settled] }

/-- Translation of `togglePlayback` (lines 433-510), with the completion
callback fixed to `onSettledCb`, the closure the program passes.  The
stop branch stops `stylus_On` and `stylus_playing`, calls `pauseMusic`,
invokes the callback immediately and then plays `stylus_Off`, scheduling
its stop after `duration * 1000` ms.  The start branch plays `stylus_On`
and schedules its continuation after `duration * 1000` ms; without
`stylus_On` it runs the simplified sequence at once — which never invokes
the callback. -/
def togglePlayback (c : Cfg) (s : SeqSt) : SeqSt :=
  if s.playing then
    let s1 := { s with playing := false, log := s.log ++ [Ev.setPlaying false] }
    let s2 := stopAnimation c "stylus_On" s1
    let s3 := stopAnimation c "stylus_playing" s2
    let s4 := { s3 with log := s3.log ++ [Ev.pauseMusicCall] }
    let s5 := onSettledCb s4
    match lookupClip c.reg "stylus_Off" with
    | some d =>
      let s6 := playAnimation c "stylus_Off" false s5
      { s6 with timers := s6.timers ++ [(d * 1000, Cont.stylusOffDone)] }
    | none => { s5 with log := s5.log ++ [Ev.updateVis none] }
  else
    match lookupClip c.reg "stylus_On" with
    | some d =>
      let s1 := playAnimation c "stylus_On" false s
      { s1 with timers := s1.timers ++ [(d * 1000, Cont.stylusOnDone)] }
    | none =>
      let s1 := { s with playing := true, log := s.log ++ [Ev.setPlaying true] }
      let s2 := playAnimation c "stylus_playing" true s1
      let s3 :=
        if c.hasPlayMusic then { s2 with log := s2.log ++ [Ev.playMusicCall] } else s2
      { s3 with log := s3.log ++ [Ev.updateVis none] }

/-- Execution of a fired timer continuation.  The `stylus_On`
continuation sets the playing flag, starts the looping `stylus_playing`,
and — only when `audioState.playMusic` is a function — calls it and then
invokes the completion callback; the `stylus_Off` continuation stops the
clip and refreshes visuals. -/
def fireCont (c : Cfg) (k : Cont) (s : SeqSt) : SeqSt :=
  match k with
  | Cont.buttonDelay => togglePlayback c s
  | Cont.stylusOnDone =>
    let s1 := { s with playing := true, log := s.log ++ [Ev.setPlaying true] }
    let s2 := playAnimation c "stylus_playing" true s1
    let s3 :=
      if c.hasPlayMusic then onSettledCb { s2 with log := s2.log ++ [Ev.playMusicCall] }
      else s2
    { s3 with log := s3.log ++ [Ev.updateVis none] }
  | Cont.stylusOffDone =>
    let s1 := stopAnimation c "stylus_Off" s
    { s1 with log := s1.log ++ [Ev.updateVis none] }

/-- Fire the next pending timer (the sequences at hand keep at most one
timer pending, so scheduling order is firing order). -/
def fireNext (c : Cfg) (s : SeqSt) : SeqSt :=
  match s.timers with
  | [] => s
  | t :: rest => fireCont c t.2 { s with timers := rest }

/-- Run pending timers to quiescence, with fuel. -/
def runTimers (c : Cfg) : ℕ → SeqSt → SeqSt
  | 0, s => s
  | Nat.succ n, s =>
    match s.timers with
    | [] => s
    | _ :: _ => runTimers c n (fireNext c s)

/-- Duration lookup `animationControl.animations['button_down']?.duration
|| 0.8` of `onSelectStart` (line 817): JavaScript `||` also replaces a
zero duration by the `0.8` fallback. -/
def buttonAnimDuration (r : Registry) : ℚ :=
  match r.buttonDown with
  | some d => if d = 0 then 4/5 else d
  | none => 4/5

/-- Debounce delay `Math.max(buttonAnimDuration * 1000, 500)` of
`onSelectStart` (line 818). -/
def buttonDelayMs (r : Registry) : ℚ := max (buttonAnimDuration r * 1000) 500

/-- Translation of the `selectstart` handler built by `onSelectStart`
(lines 769-866), applied to the current intersection list.  A press on a
button is dropped while the debounce lock is held; an accepted press
plays the click effect, and for the play button takes the lock, plays
(`Stopped`) or stops (`Playing`) the `button_down` clip, and schedules
`togglePlayback` with the lock-releasing callback after
`buttonDelayMs`; a press on a rotatable region starts a drag. -/
def onSelectStart (c : Cfg) (intersects : List HitObj) (s : SeqSt) : SeqSt :=
  match intersects.head? with
  | none => s
  | some o =>
    if o.isButton then
      if s.isAnimating then s
      else
        let s1 := if c.hasClick then { s with log := s.log ++ [Ev.playClick] } else s
        let s2 :=
          if o.buttonType = some "play" ∨ strIncludes o.name "pause_play" = true then
            let sa := { s1 with isAnimating := true }
            let sb :=
              if sa.playing then
                { (stopAnimation c "button_down" sa) with buttonState := "up" }
              else
                { (playAnimation c "button_down" false sa) with buttonState := "down" }
            { sb with timers := sb.timers ++ [(buttonDelayMs c.reg, Cont.buttonDelay)] }
          else s1
        { s2 with buttonPressed := true, log := s2.log ++ [Ev.updateVis (some "pressed")] }
    else if o.isRotatable then
      { s with isDragging := true }
    else s

/-- The play-button node as `setupInteractions` tags it (lines 294-316):
`userData.isButton = true`, `userData.buttonType = 'play'`. -/
def playHit : HitObj :=
  { name := "pause_play", isButton := true, isRotatable := false,
    buttonType := some "play" }

/-- Initial runtime state of `xrControl` and `gameState` (lines
1076-1123): nothing pressed, not playing, lock free. -/
def initSeqSt : SeqSt :=
  { isAnimating := false, playing := false, buttonPressed := false,
    isDragging := false, buttonState := "up", timers := [], log := [] }

/-- Configuration with every clip the sequencer uses registered and the
audio system initialised. -/
def fullCfg (d1 dp d2 db : ℚ) : Cfg :=
  { reg := { stylusOn := some d1, stylusPlaying := some dp, stylusOff := some d2, buttonDown := some db },
    hasPlayMusic := true, hasClick := true }

/-- A burst of `n` play-button press events with no timer firing in
between. -/
def pressBurst (c : Cfg) : ℕ → SeqSt → SeqSt
  | 0, s => s
  | Nat.succ n, s => pressBurst c n (onSelectStart c [playHit] s)

/-- State after a burst of `n` presses followed by running every pending
timer to quiescence. -/
def burstFinal (d1 dp d2 db : ℚ) (n : ℕ) : SeqSt :=
  runTimers (fullCfg d1 dp d2 db) 5
    (pressBurst (fullCfg d1 dp d2 db) n initSeqSt)

/-- Stopped idle state: the state before the first toggle. -/
def stoppedSt : SeqSt := initSeqSt

/-- Playing idle state: music running, lock free, no pending timers. -/
def playingSt : SeqSt := { initSeqSt with playing := true }

/-- Degraded registry: `stylus_On` and `stylus_Off` unregistered. -/
def degCfg (dp : ℚ) : Cfg :=
  { reg := { stylusOn := none, stylusPlaying := some dp, stylusOff := none, buttonDown := some (4/5) },
    hasPlayMusic := true, hasClick := true }

/-- Stopped state with the debounce lock held, as it is when the
button-delay timer invokes `togglePlayback`. -/
def lockedStoppedSt : SeqSt := { initSeqSt with isAnimating := true }

/-- Feedback event an accepted press emits for the `button_down` clip:
played when stopped, stopped when playing, nothing when unregistered. -/
def feedbackEvents (r : Registry) (playing : Bool) : List Ev :=
  if playing then
    match r.buttonDown with
    | some _ => [Ev.stopAnim "button_down"]
    | none => []
  else
    match r.buttonDown with
    | some _ => [Ev.playAnim "button_down" false]
    | none => []

/-- Registry used by the C7 amended witness. -/
def regA : Registry :=
  { stylusOn := some 1, stylusPlaying := some 2, stylusOff := some (4/5),
    buttonDown := some (4/5) }

/-! ## Helper lemmas -/

lemma lofiPath_includes : strIncludes lofiPath "lofi.mp3" = true := by decide

lemma applyMOp_some (s : AudioSt) (m : AudioObj) (h : s.musicAudio = some m)
    (op : MOp) :
    ∃ m2, (applyMOp s op).musicAudio = some m2 ∧ m2.id = m.id ∧
      (applyMOp s op).nextId = s.nextId := by
  cases op with
  | play v =>
    refine ⟨{ m with volume := v, currentTime := 0, paused := false }, ?_, rfl, ?_⟩ <;>
      simp [applyMOp, playAudio, lofiPath_includes, h]
  | pause =>
    refine ⟨{ m with paused := true, currentTime := 0 }, ?_, rfl, ?_⟩ <;>
      simp [applyMOp, pauseMusic, h]

lemma applyMOps_some (ops : List MOp) :
    ∀ (s : AudioSt) (m : AudioObj), s.musicAudio = some m →
      ∃ m2, (applyMOps ops s).musicAudio = some m2 ∧ m2.id = m.id ∧
        (applyMOps ops s).nextId = s.nextId := by
  induction ops with
  | nil => exact fun s m h => ⟨m, h, rfl, rfl⟩
  | cons op rest ih =>
    intro s m h
    obtain ⟨m2, h2, hid2, hn2⟩ := applyMOp_some s m h op
    obtain ⟨m3, h3, hid3, hn3⟩ := ih (applyMOp s op) m2 h2
    refine ⟨m3, ?_, hid3.trans hid2, ?_⟩
    · simpa [applyMOps] using h3
    · have : (applyMOps (op :: rest) s) = applyMOps rest (applyMOp s op) := rfl
      rw [this, hn3, hn2]

lemma applyMOps_nextId (ops : List MOp) :
    ∀ s : AudioSt,
      (applyMOps ops s).nextId ≤ s.nextId + (if s.musicAudio.isNone then 1 else 0) := by
  induction ops with
  | nil => intro s; simp [applyMOps]
  | cons op rest ih =>
    intro s
    have hstep : applyMOps (op :: rest) s = applyMOps rest (applyMOp s op) := rfl
    rw [hstep]
    cases hm : s.musicAudio with
    | some m =>
      obtain ⟨m2, h2, _, hn2⟩ := applyMOp_some s m hm op
      obtain ⟨m3, _, _, hn3⟩ := applyMOps_some rest (applyMOp s op) m2 h2
      simp [applyMOps] at hn3
      simp [hm, applyMOps]
      omega
    | none =>
      cases op with
      | pause =>
        have : applyMOp s MOp.pause = s := by simp [applyMOp, pauseMusic, hm]
        rw [this]
        have := ih s
        simp [hm] at this ⊢
        omega
      | play v =>
        have hsome : (applyMOp s (MOp.play v)).musicAudio
            = some { id := s.nextId, volume := v, currentTime := 0, paused := false, loop := true } := by
          simp [applyMOp, playAudio, lofiPath_includes, hm]
        have hnext : (applyMOp s (MOp.play v)).nextId = s.nextId + 1 := by
          simp [applyMOp, playAudio, lofiPath_includes, hm]
        obtain ⟨m3, _, _, hn3⟩ := applyMOps_some rest (applyMOp s (MOp.play v)) _ hsome
        rw [hn3, hnext]
        simp [hm]

lemma cleanupAudioT_idx (s : TrackSt) :
    (cleanupAudioT s).currentTrackIndex = s.currentTrackIndex := by
  cases h : s.musicAudio <;> simp [cleanupAudioT, h]

lemma pitch_clamped_step (s : RotSt) (dx dy spd : ℚ)
    (h1 : -halfPi ≤ s.pitch) (h2 : s.pitch ≤ halfPi) :
    -halfPi ≤ (applyCameraRelativeRotation s dx dy spd).pitch
  ∧ (applyCameraRelativeRotation s dx dy spd).pitch ≤ halfPi := by
  unfold applyCameraRelativeRotation
  split
  · exact ⟨h1, h2⟩
  · refine ⟨le_max_left _ _, max_le ?_ (min_le_left _ _)⟩
    have : (0 : ℚ) ≤ halfPi := by norm_num [halfPi]
    linarith

lemma applyDrags_pitch (ds : List (ℚ × ℚ)) :
    ∀ s : RotSt, -halfPi ≤ s.pitch → s.pitch ≤ halfPi →
      -halfPi ≤ (applyDrags ds s).pitch ∧ (applyDrags ds s).pitch ≤ halfPi := by
  induction ds with
  | nil => exact fun s h1 h2 => ⟨h1, h2⟩
  | cons d rest ih =>
    intro s h1 h2
    have hstep := pitch_clamped_step s (d.1 * 3000) (-(d.2 * 3000)) (1/100) h1 h2
    exact ih (dragStep s d) hstep.1 hstep.2

lemma dragStep_yaw (s : RotSt) (d : ℚ × ℚ) :
    (dragStep s d).yaw = s.yaw + d.1 * 30 := by
  unfold dragStep applyCameraRelativeRotation
  split
  · rename_i h
    have hx : d.1 = 0 := by
      have := h.1
      have h3000 : (3000 : ℚ) ≠ 0 := by norm_num
      exact (mul_eq_zero.mp this).resolve_right h3000
    simp [hx]
  · show s.yaw + d.1 * 3000 * (1/100) = s.yaw + d.1 * 30
    ring

lemma applyDrags_yaw (ds : List (ℚ × ℚ)) :
    ∀ s : RotSt, (applyDrags ds s).yaw = s.yaw + (ds.map (fun d => d.1 * 30)).sum := by
  induction ds with
  | nil => intro s; simp [applyDrags]
  | cons d rest ih =>
    intro s
    have hstep : applyDrags (d :: rest) s = applyDrags rest (dragStep s d) := rfl
    rw [hstep, ih (dragStep s d), dragStep_yaw]
    simp
    ring

lemma lookupClip_on (r : Registry) : lookupClip r "stylus_On" = r.stylusOn := rfl

lemma lookupClip_playing (r : Registry) :
    lookupClip r "stylus_playing" = r.stylusPlaying := rfl

lemma lookupClip_off (r : Registry) : lookupClip r "stylus_Off" = r.stylusOff := rfl

lemma lookupClip_down (r : Registry) : lookupClip r "button_down" = r.buttonDown := rfl

/-! ## Claim theorems -/

/-- C3: the music player creates the underlying `Audio` object only when
`audioState.musicAudio` is null; when a singleton already exists, a
`playMusic` call constructs nothing (the creation counter is unchanged),
returns the identical stored instance and keeps it stored; and along any
`playMusic` / `pauseMusic` sequence without `cleanupAudio` at most one
`Audio` object is ever created, so at most one live music handle exists. -/
theorem music_singleton (s : AudioSt) :
    (∀ m, s.musicAudio = some m → ∀ v : ℚ,
        (playAudio lofiPath s v).2.id = m.id
      ∧ (playAudio lofiPath s v).1.nextId = s.nextId
      ∧ (playAudio lofiPath s v).1.musicAudio = some (playAudio lofiPath s v).2)
  ∧ (s.musicAudio = none → ∀ v : ℚ,
        (playAudio lofiPath s v).2.id = s.nextId
      ∧ (playAudio lofiPath s v).1.nextId = s.nextId + 1
      ∧ (playAudio lofiPath s v).1.musicAudio = some (playAudio lofiPath s v).2)
  ∧ (∀ ops : List MOp,
        (applyMOps ops s).nextId ≤ s.nextId + (if s.musicAudio.isNone then 1 else 0)) := by
  refine ⟨?_, ?_, fun ops => applyMOps_nextId ops s⟩
  · intro m hm v
    refine ⟨?_, ?_, ?_⟩ <;> simp [playAudio, lofiPath_includes, hm]
  · intro hm v
    refine ⟨?_, ?_, ?_⟩ <;> simp [playAudio, lofiPath_includes, hm]

theorem music_singleton_witness :
    audioStB.musicAudio = some (playAudio lofiPath audioStA 1).2
  ∧ ((playAudio lofiPath audioStB (1/2)).2.id = (playAudio lofiPath audioStA 1).2.id
    ∧ (playAudio lofiPath audioStB (1/2)).1.nextId = audioStB.nextId
    ∧ (playAudio lofiPath audioStB (1/2)).1.musicAudio
        = some (playAudio lofiPath audioStB (1/2)).2) :=
  ⟨rfl, (music_singleton audioStB).1 (playAudio lofiPath audioStA 1).2 rfl (1/2)⟩

/-- C5: `pauseMusic` with an existing singleton pauses it and resets its
playback position to zero while keeping the same instance stored, so a
subsequent `playMusic` starts the same handle from position zero; with no
singleton it changes nothing at all. -/
theorem pause_resets_position (s : AudioSt) :
    (s.musicAudio = none → pauseMusic s = s)
  ∧ (∀ m, s.musicAudio = some m →
        (pauseMusic s).musicAudio = some { m with paused := true, currentTime := 0 }
      ∧ (pauseMusic s).nextId = s.nextId
      ∧ (∀ v : ℚ,
          (playAudio lofiPath (pauseMusic s) v).2.id = m.id
        ∧ (playAudio lofiPath (pauseMusic s) v).2.currentTime = 0
        ∧ (playAudio lofiPath (pauseMusic s) v).2.paused = false)) := by
  constructor
  · intro hm; simp [pauseMusic, hm]
  · intro m hm
    refine ⟨by simp [pauseMusic, hm], by simp [pauseMusic, hm], ?_⟩
    intro v
    refine ⟨?_, ?_, ?_⟩ <;> simp [playAudio, pauseMusic, lofiPath_includes, hm]

theorem pause_resets_position_witness :
    audioStC.musicAudio = some audioObjB
  ∧ ((pauseMusic audioStC).musicAudio
        = some { audioObjB with paused := true, currentTime := 0 }
    ∧ (pauseMusic audioStC).nextId = audioStC.nextId
    ∧ ((playAudio lofiPath (pauseMusic audioStC) 2).2.id = audioObjB.id
      ∧ (playAudio lofiPath (pauseMusic audioStC) 2).2.currentTime = 0
      ∧ (playAudio lofiPath (pauseMusic audioStC) 2).2.paused = false)) := by
  refine ⟨rfl, ?_⟩
  have h := (pause_resets_position audioStC).2 audioObjB rfl
  exact ⟨h.1, h.2.1, h.2.2 2⟩

/-- C8: with no explicit state argument, the visual state is chosen by the
priority `pressed > playing > hovering > idle`; pressed assigns an
emissive material of intensity `0.4`, playing one of intensity `0.2`,
hovering one of intensity `0.3`, and idle restores the original
unmodified material.  The only effect of the function is the returned
material assignment. -/
theorem button_visual_priority (ctx : VisCtx) :
    updateButtonStateVisual none { ctx with hasButton := true, buttonPressed := true }
      = MatAssign.emissive 1 (4/5) (1/5) (2/5)
  ∧ updateButtonStateVisual none
      { ctx with hasButton := true, buttonPressed := false, playing := true }
      = MatAssign.emissive 0 (68/255) 0 (1/5)
  ∧ updateButtonStateVisual none
      { ctx with hasButton := true, buttonPressed := false, playing := false, isHovering := true }
      = MatAssign.emissive (9/10) 1 1 (3/10)
  ∧ updateButtonStateVisual none
      { ctx with hasButton := true, buttonPressed := false, playing := false, isHovering := false }
      = MatAssign.original := by
  exact ⟨rfl, rfl, rfl, rfl⟩

/-- C9: with one track or fewer both switch functions return with no
state change at all; with a longer list each call moves
`currentTrackIndex` by minus resp. plus one modulo the list length, so
the index always stays inside `[0, length)`. -/
theorem track_switch_modulo (s : TrackSt) :
    (s.trackList.length ≤ 1 → playPreviousTrack s = s ∧ playNextTrack s = s)
  ∧ (1 < s.trackList.length →
        (playPreviousTrack s).currentTrackIndex
          = (s.currentTrackIndex + s.trackList.length - 1) % s.trackList.length
      ∧ (playNextTrack s).currentTrackIndex
          = (s.currentTrackIndex + 1) % s.trackList.length
      ∧ (playPreviousTrack s).currentTrackIndex < s.trackList.length
      ∧ (playNextTrack s).currentTrackIndex < s.trackList.length) := by
  constructor
  · intro h
    constructor <;> simp [playPreviousTrack, playNextTrack, h]
  · intro h
    have hn : ¬ s.trackList.length ≤ 1 := by omega
    have hpos : 0 < s.trackList.length := by omega
    have hprev : (playPreviousTrack s).currentTrackIndex
        = (s.currentTrackIndex + s.trackList.length - 1) % s.trackList.length := by
      simp only [playPreviousTrack, if_neg hn]
      split <;> simp [cleanupAudioT_idx]
    have hnext : (playNextTrack s).currentTrackIndex
        = (s.currentTrackIndex + 1) % s.trackList.length := by
      simp only [playNextTrack, if_neg hn]
      split <;> simp [cleanupAudioT_idx]
    refine ⟨hprev, hnext, ?_, ?_⟩
    · rw [hprev]; exact Nat.mod_lt _ hpos
    · rw [hnext]; exact Nat.mod_lt _ hpos

theorem track_switch_modulo_witness :
    1 < trackStA.trackList.length
  ∧ ((playPreviousTrack trackStA).currentTrackIndex
        = (trackStA.currentTrackIndex + trackStA.trackList.length - 1)
            % trackStA.trackList.length
    ∧ (playNextTrack trackStA).currentTrackIndex
        = (trackStA.currentTrackIndex + 1) % trackStA.trackList.length
    ∧ (playPreviousTrack trackStA).currentTrackIndex < trackStA.trackList.length
    ∧ (playNextTrack trackStA).currentTrackIndex < trackStA.trackList.length) :=
  ⟨by decide, (track_switch_modulo trackStA).2 (by decide)⟩

/-- C10: a top hit on a button whose name contains `pause_play` as a
substring (the form `findModelComponents` accepts) but is not exactly
`pause_play` never activates the hover visual — the hover flag and event
list are untouched for any prior hover state — while hover exit (clearing
an existing hover when no button is hit) fires both on an empty
intersection list and on any non-button top hit, regardless of names. -/
theorem hover_requires_exact_name (o : HitObj) (hov : Bool) (x : HitObj)
    (xs : List HitObj)
    (hb : o.isButton = true)
    (hsub : nameMatchesPlayButton o.name = true)
    (hne : o.name ≠ "pause_play")
    (hxb : x.isButton = false) :
    findPlayButton [o.name] = some o.name
  ∧ handleHoverTick [o] hov = (hov, [])
  ∧ (handleHoverTick [o] false).1 = false
  ∧ handleHoverTick [] true = (false, [HovEv.hoverExit])
  ∧ handleHoverTick (x :: xs) true = (false, [HovEv.hoverExit]) := by
  refine ⟨?_, ?_, ?_, rfl, ?_⟩
  · simp [findPlayButton, hsub]
  · simp [handleHoverTick, hb, hne]
  · simp [handleHoverTick, hb, hne]
  · simp [handleHoverTick, hxb]

theorem hover_requires_exact_name_witness :
    (oddButton.isButton = true ∧ nameMatchesPlayButton oddButton.name = true
      ∧ oddButton.name ≠ "pause_play" ∧ plainHit.isButton = false)
  ∧ (findPlayButton [oddButton.name] = some oddButton.name
    ∧ handleHoverTick [oddButton] true = (true, [])
    ∧ (handleHoverTick [oddButton] false).1 = false
    ∧ handleHoverTick [] true = (false, [HovEv.hoverExit])
    ∧ handleHoverTick (plainHit :: []) true = (false, [HovEv.hoverExit])) :=
  ⟨⟨rfl, by decide, by decide, rfl⟩,
   hover_requires_exact_name oddButton true plainHit [] rfl (by decide) (by decide) rfl⟩

/-- C6: over every sequence of drag deltas, however large, the pitch of
the model stays inside `[-Math.PI/2, Math.PI/2]`; the yaw meanwhile is
the unclamped sum of the scaled horizontal deltas, and for every bound
there is a drag sequence whose yaw exceeds it. -/
theorem rotation_pitch_clamped :
    (∀ ds : List (ℚ × ℚ),
        -halfPi ≤ (applyDrags ds initRot).pitch
      ∧ (applyDrags ds initRot).pitch ≤ halfPi)
  ∧ (∀ ds : List (ℚ × ℚ),
        (applyDrags ds initRot).yaw = (ds.map (fun d => d.1 * 30)).sum)
  ∧ (∀ B : ℚ, ∃ ds : List (ℚ × ℚ), B < (applyDrags ds initRot).yaw) := by
  have hpos : (0 : ℚ) ≤ halfPi := by norm_num [halfPi]
  refine ⟨?_, ?_, ?_⟩
  · intro ds
    exact applyDrags_pitch ds initRot (by simpa [initRot] using neg_nonpos.mpr hpos)
      (by simpa [initRot] using hpos)
  · intro ds
    have := applyDrags_yaw ds initRot
    simpa [initRot] using this
  · intro B
    refine ⟨[(|B| + 1, 0)], ?_⟩
    have hy := applyDrags_yaw [(|B| + 1, 0)] initRot
    simp only [initRot] at hy ⊢
    simp at hy
    rw [hy]
    have habs : B ≤ |B| := le_abs_self B
    have hnn : (0 : ℚ) ≤ |B| := abs_nonneg B
    linarith

/-- C2: with `stylus_On` (duration `d1`), `stylus_playing` and
`stylus_Off` (duration `d2`) registered, a toggle from the stopped state
plays `stylus_On` at once and schedules a continuation after `d1 * 1000`
milliseconds which sets the playing flag, starts `stylus_playing`
looping, calls `playMusic` and invokes the completion callback; a toggle
from the playing state immediately clears the playing flag, stops the
stylus clips, calls `pauseMusic`, invokes the completion callback before
`stylus_Off` starts, then plays `stylus_Off` and schedules its stop
after `d2 * 1000` milliseconds. -/
theorem toggle_sequences (d1 dp d2 db : ℚ) :
    ((togglePlayback (fullCfg d1 dp d2 db) stoppedSt).log = [Ev.playAnim "stylus_On" false]
  ∧ (togglePlayback (fullCfg d1 dp d2 db) stoppedSt).playing = false
  ∧ (togglePlayback (fullCfg d1 dp d2 db) stoppedSt).timers
      = [(d1 * 1000, Cont.stylusOnDone)]
  ∧ (fireNext (fullCfg d1 dp d2 db) (togglePlayback (fullCfg d1 dp d2 db) stoppedSt)).playing
      = true
  ∧ (fireNext (fullCfg d1 dp d2 db) (togglePlayback (fullCfg d1 dp d2 db) stoppedSt)).log
      = [Ev.playAnim "stylus_On" false, Ev.setPlaying true,
         Ev.playAnim "stylus_playing" true, Ev.playMusicCall, Ev.settled,
         Ev.updateVis none]
  ∧ (fireNext (fullCfg d1 dp d2 db) (togglePlayback (fullCfg d1 dp d2 db) stoppedSt)).isAnimating
      = false)
  ∧ ((togglePlayback (fullCfg d1 dp d2 db) playingSt).playing = false
  ∧ (togglePlayback (fullCfg d1 dp d2 db) playingSt).log
      = [Ev.setPlaying false, Ev.stopAnim "stylus_On", Ev.stopAnim "stylus_playing",
         Ev.pauseMusicCall, Ev.settled, Ev.playAnim "stylus_Off" false]
  ∧ (togglePlayback (fullCfg d1 dp d2 db) playingSt).timers
      = [(d2 * 1000, Cont.stylusOffDone)]
  ∧ (fireNext (fullCfg d1 dp d2 db) (togglePlayback (fullCfg d1 dp d2 db) playingSt)).log
      = [Ev.setPlaying false, Ev.stopAnim "stylus_On", Ev.stopAnim "stylus_playing",
         Ev.pauseMusicCall, Ev.settled, Ev.playAnim "stylus_Off" false,
         Ev.stopAnim "stylus_Off", Ev.updateVis none]
  ∧ (fireNext (fullCfg d1 dp d2 db) (togglePlayback (fullCfg d1 dp d2 db) playingSt)).timers
      = []) :=
  ⟨⟨rfl, rfl, rfl, rfl, rfl, rfl⟩, rfl, rfl, rfl, rfl, rfl⟩

/-- C4 evaluation: in the degraded start path — `stylus_On` (and
`stylus_Off`) unregistered — `togglePlayback` performs the transition
immediately (playing flag set, `stylus_playing` started, music started)
but never invokes the completion callback, so the debounce lock
`xrControl.isAnimating` stays held; consequently after a press is
processed to quiescence the lock is still set and every further press is
ignored, leaving the button permanently dead. -/
theorem degraded_start_keeps_lock (dp : ℚ) :
    (togglePlayback (degCfg dp) lockedStoppedSt).playing = true
  ∧ (togglePlayback (degCfg dp) lockedStoppedSt).log
      = [Ev.setPlaying true, Ev.playAnim "stylus_playing" true, Ev.playMusicCall,
         Ev.updateVis none]
  ∧ (togglePlayback (degCfg dp) lockedStoppedSt).isAnimating = true
  ∧ (togglePlayback (degCfg dp) lockedStoppedSt).log.count Ev.settled = 0
  ∧ (togglePlayback (degCfg dp) lockedStoppedSt).timers = []
  ∧ (runTimers (degCfg dp) 5 (onSelectStart (degCfg dp) [playHit] initSeqSt)).isAnimating
      = true
  ∧ onSelectStart (degCfg dp) [playHit]
        (runTimers (degCfg dp) 5 (onSelectStart (degCfg dp) [playHit] initSeqSt))
      = runTimers (degCfg dp) 5 (onSelectStart (degCfg dp) [playHit] initSeqSt) :=
  ⟨rfl, rfl, rfl, rfl, rfl, rfl, rfl⟩

/-- C7 counterexample: a press accepted while the music is playing (lock
taken, toggle scheduled) does not play the `button_down` feedback clip —
it stops it instead — refuting that every accepted press plays the
feedback animation. -/
theorem press_while_playing_stops_feedback :
    (onSelectStart (fullCfg 1 2 (4/5) (4/5)) [playHit] playingSt).isAnimating = true
  ∧ (onSelectStart (fullCfg 1 2 (4/5) (4/5)) [playHit] playingSt).log
      = [Ev.playClick, Ev.stopAnim "button_down", Ev.updateVis (some "pressed")]
  ∧ (onSelectStart (fullCfg 1 2 (4/5) (4/5)) [playHit] playingSt).log.count
        (Ev.playAnim "button_down" false) = 0 :=
  ⟨rfl, rfl, rfl⟩

/-- C7 amended: every accepted press on the play button plays the click
effect, sets the debounce lock, plays the `button_down` feedback clip
when not playing and stops it when playing (nothing when unregistered),
and schedules `togglePlayback` with the lock-releasing callback after
`max(durationMillis, 500)` where the fallback duration `0.8` s is used
when the clip is unregistered. -/
theorem press_accepted_behavior (r : Registry) (s : SeqSt)
    (ha : s.isAnimating = false) :
    (onSelectStart ⟨r, true, true⟩ [playHit] s).isAnimating = true
  ∧ (onSelectStart ⟨r, true, true⟩ [playHit] s).buttonPressed = true
  ∧ (onSelectStart ⟨r, true, true⟩ [playHit] s).timers
      = s.timers ++ [(buttonDelayMs r, Cont.buttonDelay)]
  ∧ (onSelectStart ⟨r, true, true⟩ [playHit] s).log
      = s.log ++ [Ev.playClick] ++ feedbackEvents r s.playing
          ++ [Ev.updateVis (some "pressed")] := by
  cases hp : s.playing <;> cases hd : r.buttonDown <;>
    refine ⟨?_, ?_, ?_, ?_⟩ <;>
      simp [onSelectStart, playHit, ha, hp, hd, stopAnimation, playAnimation,
        lookupClip_down, feedbackEvents, buttonDelayMs]

theorem press_accepted_behavior_witness :
    initSeqSt.isAnimating = false
  ∧ ((onSelectStart ⟨regA, true, true⟩ [playHit] initSeqSt).isAnimating = true
    ∧ (onSelectStart ⟨regA, true, true⟩ [playHit] initSeqSt).buttonPressed = true
    ∧ (onSelectStart ⟨regA, true, true⟩ [playHit] initSeqSt).timers
        = initSeqSt.timers ++ [(buttonDelayMs regA, Cont.buttonDelay)]
    ∧ (onSelectStart ⟨regA, true, true⟩ [playHit] initSeqSt).log
        = initSeqSt.log ++ [Ev.playClick] ++ feedbackEvents regA initSeqSt.playing
            ++ [Ev.updateVis (some "pressed")]) :=
  ⟨rfl, press_accepted_behavior regA initSeqSt rfl⟩

/-- C1: for a burst of `n ≥ 1` press events on the play button delivered
before any timer fires, only the first press has any effect (the burst
equals a single press, because every press finding the lock held returns
unchanged); running the pending timers to quiescence then yields exactly
one completion-callback invocation — which releases the lock — exactly
one `Starting → Playing` transition, and no pending toggle, so at most
one toggle sequence is ever in flight. -/
theorem debounce_single_toggle (d1 dp d2 db : ℚ) (n : ℕ) (hn : 1 ≤ n) :
    pressBurst (fullCfg d1 dp d2 db) n initSeqSt
      = onSelectStart (fullCfg d1 dp d2 db) [playHit] initSeqSt
  ∧ (burstFinal d1 dp d2 db n).log.count Ev.settled = 1
  ∧ (burstFinal d1 dp d2 db n).isAnimating = false
  ∧ (burstFinal d1 dp d2 db n).timers = []
  ∧ (burstFinal d1 dp d2 db n).log.count (Ev.setPlaying true) = 1 := by
  obtain ⟨k, rfl⟩ : ∃ k, n = k + 1 := ⟨n - 1, by omega⟩
  have hlocked : ∀ m (t : SeqSt), t.isAnimating = true →
      pressBurst (fullCfg d1 dp d2 db) m t = t := by
    intro m
    induction m with
    | zero => intro t _; rfl
    | succ j ih =>
      intro t ht
      have h1 : onSelectStart (fullCfg d1 dp d2 db) [playHit] t = t := by
        simp [onSelectStart, playHit, ht]
      calc pressBurst (fullCfg d1 dp d2 db) (j + 1) t
          = pressBurst (fullCfg d1 dp d2 db) j
              (onSelectStart (fullCfg d1 dp d2 db) [playHit] t) := rfl
        _ = pressBurst (fullCfg d1 dp d2 db) j t := by rw [h1]
        _ = t := ih t ht
  have hcollapse : pressBurst (fullCfg d1 dp d2 db) (k + 1) initSeqSt
      = onSelectStart (fullCfg d1 dp d2 db) [playHit] initSeqSt := by
    have hstep : pressBurst (fullCfg d1 dp d2 db) (k + 1) initSeqSt
        = pressBurst (fullCfg d1 dp d2 db) k
            (onSelectStart (fullCfg d1 dp d2 db) [playHit] initSeqSt) := rfl
    rw [hstep]
    exact hlocked k _ rfl
  refine ⟨hcollapse, ?_, ?_, ?_, ?_⟩ <;>
    · unfold burstFinal
      rw [hcollapse]
      rfl

theorem debounce_single_toggle_witness :
    1 ≤ 5
  ∧ (pressBurst (fullCfg 1 2 (4/5) (4/5)) 5 initSeqSt
        = onSelectStart (fullCfg 1 2 (4/5) (4/5)) [playHit] initSeqSt
    ∧ (burstFinal 1 2 (4/5) (4/5) 5).log.count Ev.settled = 1
    ∧ (burstFinal 1 2 (4/5) (4/5) 5).isAnimating = false
    ∧ (burstFinal 1 2 (4/5) (4/5) 5).timers = []
    ∧ (burstFinal 1 2 (4/5) (4/5) 5).log.count (Ev.setPlaying true) = 1) :=
  ⟨by decide, debounce_single_toggle 1 2 (4/5) (4/5) 5 (by decide)⟩

end LofiFM
